import Mathlib

/-!
Shallow embedding of the `warc-embed-netlify` edge functions:
* `src/netlify/edge-functions/archive.js` (generic handler, range polyfill),
* `src/netlify/edge-functions/archive-wacz.js` (same structure, `.wacz` only),
* `src/netlify/edge-functions/archive-warc-gz.js` (plain proxy, `.warc.gz` only),
* the unnamed embed templating function (placeholder substitution).

JavaScript strings are Lean `String`s / `List Char`s; JavaScript numbers that
can be `NaN` are `Option Int` (with `none` standing for `NaN`); `null`-able
header values are `Option String`.  The JavaScript value stored in the
handler's `archiveByteLength` variable (which is `null`, the raw header
string, or a measured number) is the inductive `JsVal`.
-/

namespace WarcEmbed

/-! ### JavaScript number printing and parsing -/

/-- Value of a decimal digit character (JS `charCode - 48`). -/
def digitVal (c : Char) : Nat := c.toNat - 48

/-- Decimal value of a list of digit characters, most significant first. -/
def digitsToNat (ds : List Char) : Nat :=
  ds.foldl (fun a c => a * 10 + digitVal c) 0

/-- Folding the digit-accumulation step starting from `a` (proof helper). -/
def dFrom (a : Nat) (ds : List Char) : Nat :=
  ds.foldl (fun x c => x * 10 + digitVal c) a

/-- The decimal digit character for `n < 10` (and a junk character otherwise). -/
def digitChar : Nat → Char
  | 0 => '0' | 1 => '1' | 2 => '2' | 3 => '3' | 4 => '4'
  | 5 => '5' | 6 => '6' | 7 => '7' | 8 => '8' | 9 => '9'
  | _ => '*'

/-- Fuel-driven decimal printer accumulator (fuel `> n` suffices). -/
def natToDigitsAux : Nat → Nat → List Char → List Char
  | 0, _, acc => acc
  | fuel + 1, n, acc =>
    if n < 10 then digitChar n :: acc
    else natToDigitsAux fuel (n / 10) (digitChar (n % 10) :: acc)

/-- Decimal representation of a natural number, as JS `String(n)` produces. -/
def natToStr (n : Nat) : String := String.mk (natToDigitsAux (n + 1) n [])

/-- Decimal representation of an integer, as JS `String(n)` produces. -/
def intToStr (n : Int) : String :=
  if n < 0 then "-" ++ natToStr n.natAbs else natToStr n.toNat

/-- Does list `a` occur at the head of list `b`? -/
def leadsList : List Char → List Char → Bool
  | [], _ => true
  | _ :: _, [] => false
  | a :: as, b :: bs => a = b && leadsList as bs

/-- Longest leading run of decimal digits, as a number; `none` when there is
no leading digit (JS `parseInt` yields `NaN` there). -/
def parseDigitsLead (cs : List Char) : Option Nat :=
  let ds := cs.takeWhile Char.isDigit
  if ds.isEmpty then none else some (digitsToNat ds)

/-- Model of JS `parseInt(s)` (radix 10): skip leading whitespace, optional
sign, then the longest run of decimal digits; `none` models `NaN`.
(The hexadecimal `0x` prefix form of `parseInt` is not modelled; no input
relevant here uses it.) -/
def parseIntChars (cs : List Char) : Option Int :=
  match cs.dropWhile Char.isWhitespace with
  | '-' :: rest => (parseDigitsLead rest).map (fun n : Nat => -(n : Int))
  | '+' :: rest => (parseDigitsLead rest).map (fun n : Nat => (n : Int))
  | rest => (parseDigitsLead rest).map (fun n : Nat => (n : Int))

/-- Model of JS `parseInt` on a string. -/
def parseIntStr (s : String) : Option Int := parseIntChars s.data

/-- Model of JS `Number(s)` restricted to optionally-signed decimal integer
literals with surrounding whitespace (the forms arising from `content-length`
header values); `none` models `NaN`, the empty/blank string converts to `0`. -/
def jsStringToNumber (s : String) : Option Int :=
  match ((s.data.dropWhile Char.isWhitespace).reverse.dropWhile
    Char.isWhitespace).reverse with
  | [] => some 0
  | '-' :: rest =>
    if rest ≠ [] ∧ rest.all Char.isDigit then some (-(digitsToNat rest : Int))
    else none
  | '+' :: rest =>
    if rest ≠ [] ∧ rest.all Char.isDigit then some ((digitsToNat rest : Int))
    else none
  | other =>
    if other.all Char.isDigit then some ((digitsToNat other : Int)) else none

/-! ### JavaScript string operations -/

/-- JS `String.prototype.replace` with a string pattern: replaces the first
occurrence only, leaves the string unchanged when the pattern is absent. -/
def listReplaceFirst (pat repl : List Char) : List Char → List Char
  | [] => []
  | c :: cs =>
    if leadsList pat (c :: cs) then repl ++ (c :: cs).drop pat.length
    else c :: listReplaceFirst pat repl cs

/-- String wrapper for `listReplaceFirst`. -/
def jsReplaceFirst (s pat repl : String) : String :=
  String.mk (listReplaceFirst pat.data repl.data s.data)

/-- JS `String.prototype.split` with a single-character separator. -/
def splitOnChar (sep : Char) : List Char → List (List Char)
  | [] => [[]]
  | c :: cs =>
    if c = sep then [] :: splitOnChar sep cs
    else
      match splitOnChar sep cs with
      | [] => [[c]]
      | p :: ps => (c :: p) :: ps

/-- JS `String.prototype.replaceAll` with a non-empty string pattern
(left-to-right, non-overlapping, replacements are not rescanned); the fuel is
the length of the scanned list. -/
def listReplaceAllAux (pat repl : List Char) : Nat → List Char → List Char
  | _, [] => []
  | 0, l => l
  | fuel + 1, c :: cs =>
    if pat ≠ [] ∧ leadsList pat (c :: cs) then
      repl ++ listReplaceAllAux pat repl fuel ((c :: cs).drop pat.length)
    else c :: listReplaceAllAux pat repl fuel cs

/-- String wrapper for `listReplaceAllAux`. -/
def jsReplaceAll (s pat repl : String) : String :=
  String.mk (listReplaceAllAux pat.data repl.data s.data.length s.data)

/-- JS `String.prototype.includes`: substring occurrence anywhere. -/
def listIncludes (pat : List Char) : List Char → Bool
  | [] => pat.isEmpty
  | c :: cs => leadsList pat (c :: cs) || listIncludes pat cs

/-- String wrapper for `listIncludes`. -/
def jsIncludes (s pat : String) : Bool := listIncludes pat.data s.data

/-- JS `String.prototype.endsWith`: suffix test, done on reversed lists. -/
def jsEndsWith (s post : String) : Bool :=
  leadsList post.data.reverse s.data.reverse

/-! ### JavaScript values and coercions -/

/-- The JS values the handlers store in `archiveByteLength`: `null`, a raw
header string, or a measured byte count. -/
inductive JsVal where
  | null
  | str (s : String)
  | num (n : Int)
  deriving DecidableEq

/-- JS `ToNumber` coercion (`null ↦ 0`, strings via `Number`), `none` = `NaN`. -/
def jsToNumber : JsVal → Option Int
  | JsVal.null => some 0
  | JsVal.str s => jsStringToNumber s
  | JsVal.num n => some n

/-- JS string interpolation display of a value (`null` prints "null"). -/
def jsDisplay : JsVal → String
  | JsVal.null => "null"
  | JsVal.str s => s
  | JsVal.num n => intToStr n

/-- JS string interpolation display of a possibly-`NaN` number. -/
def jsNumDisplay : Option Int → String
  | none => "NaN"
  | some n => intToStr n

/-- Subtraction on possibly-`NaN` numbers (`NaN` absorbs). -/
def jsSub (a : Option Int) (k : Int) : Option Int := a.map (fun x => x - k)

/-- Addition on possibly-`NaN` numbers (`NaN` absorbs). -/
def jsAdd (a : Option Int) (k : Int) : Option Int := a.map (fun x => x + k)

/-- JS `>=` on possibly-`NaN` numbers: any comparison with `NaN` is false. -/
def jsGe (a b : Option Int) : Bool :=
  match a, b with
  | some x, some y => x ≥ y
  | _, _ => false

/-- JS `isNaN`. -/
def jsIsNaN (a : Option Int) : Bool := a.isNone

/-- Truthiness of a JS string-or-null value (`null` and `""` are falsy). -/
def jsTruthyOpt : Option String → Bool
  | none => false
  | some s => s ≠ ""

/-- Model of `ArrayBuffer.prototype.slice(begin, end)`: arguments go through
`ToInteger` (`NaN ↦ 0`), negative values count from the end, both are clamped
to `[0, length]`, and the result is empty when `end ≤ begin`. -/
def arrayBufferSlice (data : List Nat) (b e : Option Int) : List Nat :=
  let len : Int := data.length
  let rel : Int → Int := fun x => if x < 0 then max (len + x) 0 else min x len
  let b' := rel (b.getD 0)
  let e' := rel (e.getD 0)
  (data.drop b'.toNat).take (e' - b').toNat

/-! ### The range header parser (`parseRangeHeader` in `archive.js` and
`archive-wacz.js`) -/

/-- JS `parseInt(coord[i])`: a missing array element is `undefined`, and
`parseInt(undefined)` is `NaN`. -/
def jsParseIntAt (parts : List (List Char)) (i : Nat) : Option Int :=
  match parts.get? i with
  | some p => parseIntChars p
  | none => none

/-- Embedding of `parseRangeHeader(range, fullContentLength)`.

The source builds `coord` by stripping the first occurrence of `"bytes="` and
splitting on `"-"`; when `range` is `null` the `.replace` call throws and the
`catch` sets `coord = [0, fullContentLength - 1]` (the subsequent
`parseInt(String(k))` round-trips an integer, which the embedding folds away).
Then it clamps `coord[1]` to `fullContentLength - 1` when it is `NaN` or
`>= fullContentLength`.  `coord[0]` is returned as parsed — possibly `NaN`,
modelled as `none`. -/
def parseRangeHeader (range : Option String) (fullContentLength : JsVal) :
    Option Int × Option Int :=
  let lenN : Option Int := jsToNumber fullContentLength
  let coord : Option Int × Option Int :=
    match range with
    | none => (some 0, jsSub lenN 1)
    | some r =>
      let parsedRange := listReplaceFirst ("bytes=".data) [] r.data
      let parts := splitOnChar '-' parsedRange
      (jsParseIntAt parts 0, jsParseIntAt parts 1)
  let c1 : Option Int :=
    if jsIsNaN coord.2 || jsGe coord.2 lenN then jsSub lenN 1 else coord.2
  (coord.1, c1)

/-! ### Requests, origin responses, client responses -/

/-- The fields of `new URL(archiveUrl)` the handlers inspect. -/
structure ParsedUrl where
  pathname : String
  protocol : String
  host : String
  deriving DecidableEq

/-- The incoming client request, reduced to the fields the handlers read:
the method, the `range` request header, and the `archive-url` query
parameter after URL parsing (`none` when the parameter is missing or
`new URL` throws on it). -/
structure Request where
  method : String
  rangeHeader : Option String
  parsedArchiveUrl : Option ParsedUrl
  deriving DecidableEq

/-- An origin `fetch` response, reduced to the status, the headers the
handlers read, and the `arrayBuffer()` bytes. -/
structure FetchResponse where
  status : Nat
  acceptRanges : Option String
  contentLength : Option String
  etag : Option String
  contentRange : Option String
  body : List Nat
  deriving DecidableEq

/-- An origin fetch outcome: `Except.error` models a network failure / thrown
exception (from `fetch` or `arrayBuffer`). -/
abbrev FetchOutcome := Except Unit FetchResponse

/-- The response the handler constructs: status, header list (in insertion
order, keys unique), and body (`none` models a `null` body). -/
structure Response where
  status : Nat
  headers : List (String × String)
  body : Option (List Nat)
  deriving DecidableEq

/-- A record of one outgoing transfer `fetch` call: the method used and
whether the client's headers were forwarded (they are on the pass-through
path, not on the polyfill path). -/
structure FetchCall where
  method : String
  headersForwarded : Bool
  deriving DecidableEq

instance {ε α : Type} [DecidableEq ε] [DecidableEq α] :
    DecidableEq (Except ε α) := fun a b =>
  match a, b with
  | Except.error e, Except.error f =>
    if h : e = f then Decidable.isTrue (by rw [h])
    else Decidable.isFalse (by intro hh; cases hh; exact h rfl)
  | Except.error _, Except.ok _ => Decidable.isFalse (by intro hh; cases hh)
  | Except.ok _, Except.error _ => Decidable.isFalse (by intro hh; cases hh)
  | Except.ok x, Except.ok y =>
    if h : x = y then Decidable.isTrue (by rw [h])
    else Decidable.isFalse (by intro hh; cases hh; exact h rfl)

/-- Result of running a handler: either a constructed `Response` or an
uncaught exception (`Except.error`), together with the transfer fetch calls
the handler issued (the capability probe is not listed). -/
structure HandlerTrace where
  result : Except Unit Response
  transferCalls : List FetchCall
  deriving DecidableEq

/-- JS object property assignment `headers[k] = v`: overwrite in place when
the key exists, append otherwise. -/
def setHeader : List (String × String) → String → String → List (String × String)
  | [], k, v => [(k, v)]
  | (k', v') :: hs, k, v =>
    if k' = k then (k, v) :: hs else (k', v') :: setHeader hs k v

/-! ### `archive.js` -/

/-- The validation `try` block of `archive.js` (lines 38–69): determine the
file extension from the pathname (`.wacz` checked first, `.warc.gz` may
overwrite it; the two suffixes are mutually exclusive), require an
`http:`/`https:` protocol and an allowlisted host.  Returns the extension, or
`none` when any step throws (surfaced as a 400). -/
def checkArchiveUrl (parsed : Option ParsedUrl) (allowlist : List String) :
    Option String :=
  match parsed with
  | none => none
  | some u =>
    let fileExtension : Option String :=
      if jsEndsWith u.pathname (".warc.gz") then some (".warc.gz")
      else if jsEndsWith u.pathname (".wacz") then some (".wacz")
      else none
    match fileExtension with
    | none => none
    | some ext =>
      if (u.protocol = "http:" ∨ u.protocol = "https:") ∧
          allowlist.contains u.host then some ext
      else none

/-- Line 92 of `archive.js`: range support requires truthy (present and
non-empty) `accept-ranges` and `content-length` probe headers. -/
def probeSupportsRange (resp : FetchResponse) : Bool :=
  jsTruthyOpt resp.acceptRanges && jsTruthyOpt resp.contentLength

/-- Lines 96–98 of `archive.js`: `archiveByteLength` is set to the raw
`content-length` header string when that header is truthy. -/
def probeByteLength (resp : FetchResponse) : Option String :=
  match resp.contentLength with
  | none => none
  | some s => if s = "" then none else some s

/-- The base `returnHeaders` object of `archive.js` (lines 19–22). -/
def baseReturnHeaders : List (String × String) :=
  [("access-control-allow-origin", "*"), ("accept-ranges", "bytes")]

/-- The extension-specific headers of `archive.js` (lines 74–81), added to
`returnHeaders`. -/
def extensionHeaders (ext : String) : List (String × String) :=
  if ext = ".wacz" then
    [("content-type", "binary/octet-stream"),
     ("content-disposition", "attachment; filename=\"archive.wacz\"")]
  else
    [("content-type", "application/x-gzip"),
     ("content-disposition", "attachment; filename=\"archive.warc.gz\"")]

/-- The pass-through branch of `archive.js` (lines 110–130), given the
transfer response: body omitted for `HEAD`, `content-length` copied (a `null`
header stringifies to "null" in the `Headers` constructor), `etag` and
`content-range` copied when truthy, origin status relayed. -/
def passThroughTransfer (req : Request) (tresp : FetchResponse)
    (returnHeaders : List (String × String)) : Response :=
  let data : Option (List Nat) :=
    if req.method = "HEAD" then none else some tresp.body
  let hs := setHeader returnHeaders ("content-length")
    (tresp.contentLength.getD ("null"))
  let hs := if jsTruthyOpt tresp.etag then
    setHeader hs ("etag") (tresp.etag.getD ("")) else hs
  let hs := if jsTruthyOpt tresp.contentRange then
    setHeader hs ("content-range") (tresp.contentRange.getD ("")) else hs
  { status := tresp.status, headers := hs, body := data }

/-- Lines 140–142 of `archive.js`: the value of `archiveByteLength` after
the polyfill branch's measurement step — the probe's raw header string when
present, else the fetched body's length when a body was fetched, else still
`null`. -/
def polyfillByteLengthVal (ablOpt : Option String)
    (data0 : Option (List Nat)) : JsVal :=
  match ablOpt, data0 with
  | some s, _ => JsVal.str s
  | none, some d => JsVal.num d.length
  | none, none => JsVal.null

/-- The polyfill branch of `archive.js` (lines 134–158), given the transfer
response and the probe-derived `archiveByteLength` string: measure the length
when unknown and a body was fetched, parse the client `range` header, slice,
and synthesize `content-range` / `content-length`; always status 206. -/
def polyfillTransfer (req : Request) (ablOpt : Option String)
    (tresp : FetchResponse) (returnHeaders : List (String × String)) :
    Response :=
  let data0 : Option (List Nat) :=
    if req.method = "HEAD" then none else some tresp.body
  let abl : JsVal := polyfillByteLengthVal ablOpt data0
  let range := parseRangeHeader req.rangeHeader abl
  let data : Option (List Nat) :=
    data0.map (fun d => arrayBufferSlice d range.1 (jsAdd range.2 1))
  let hs := setHeader returnHeaders ("content-range")
    ("bytes " ++ jsNumDisplay range.1 ++ "-" ++ jsNumDisplay range.2 ++ "/" ++
      jsDisplay abl)
  let hs := setHeader hs ("content-length")
    (match data with | some d => natToStr d.length | none => "0")
  let hs := if jsTruthyOpt tresp.etag then
    setHeader hs ("etag") (tresp.etag.getD ("")) else hs
  { status := 206, headers := hs, body := data }

/-- Embedding of the default export of `archive.js`.  The two origin fetch
outcomes (the `HEAD` capability probe and the transfer fetch) are supplied as
oracle inputs.  Note that the `405`/`400`/`404` responses are built with
`new Response(null, {status, returnHeaders})` — the shorthand property
`returnHeaders` is not the `headers` option, so those responses carry no
headers at all; and the transfer fetches are not wrapped in `try`/`catch`, so
a failure there propagates as an uncaught exception. -/
def archiveHandler (req : Request) (allowlist : List String)
    (probe transfer : FetchOutcome) : HandlerTrace :=
  if ¬(req.method = "GET" ∨ req.method = "HEAD") then
    { result := Except.ok { status := 405, headers := [], body := none },
      transferCalls := [] }
  else
    match checkArchiveUrl req.parsedArchiveUrl allowlist with
    | none =>
      { result := Except.ok { status := 400, headers := [], body := none },
        transferCalls := [] }
    | some ext =>
      let returnHeaders := baseReturnHeaders ++ extensionHeaders ext
      match probe with
      | Except.error _ =>
        { result := Except.ok { status := 404, headers := [], body := none },
          transferCalls := [] }
      | Except.ok presp =>
        let ablOpt := probeByteLength presp
        if probeSupportsRange presp then
          match transfer with
          | Except.error _ =>
            { result := Except.error (),
              transferCalls := [{ method := req.method,
                                  headersForwarded := true }] }
          | Except.ok tresp =>
            { result := Except.ok (passThroughTransfer req tresp returnHeaders),
              transferCalls := [{ method := req.method,
                                  headersForwarded := true }] }
        else
          let m := if ablOpt.isSome then req.method else "GET"
          match transfer with
          | Except.error _ =>
            { result := Except.error (),
              transferCalls := [{ method := m, headersForwarded := false }] }
          | Except.ok tresp =>
            { result := Except.ok (polyfillTransfer req ablOpt tresp
                returnHeaders),
              transferCalls := [{ method := m, headersForwarded := false }] }

/-! ### `archive-warc-gz.js` -/

/-- The validation `try` block of `archive-warc-gz.js` (lines 28–48):
`.warc.gz` suffix, `http:`/`https:` protocol, allowlisted host. -/
def checkWarcGzUrl (parsed : Option ParsedUrl) (allowlist : List String) :
    Bool :=
  match parsed with
  | none => false
  | some u =>
    jsEndsWith u.pathname (".warc.gz") &&
      (u.protocol = "http:" || u.protocol = "https:") &&
      allowlist.contains u.host

/-- Embedding of the default export of `archive-warc-gz.js`: validate, then
one plain `fetch` (no method option, hence `GET`; no headers forwarded)
wrapped in `try`/`catch` — a throw yields a 404.  All four `Response`
constructions use the `{status, returnHeaders}` shorthand slip, so every
response (including the 200) carries no headers. -/
def archiveWarcGzHandler (req : Request) (allowlist : List String)
    (transfer : FetchOutcome) : HandlerTrace :=
  if ¬(req.method = "GET" ∨ req.method = "HEAD") then
    { result := Except.ok { status := 405, headers := [], body := none },
      transferCalls := [] }
  else if ¬(checkWarcGzUrl req.parsedArchiveUrl allowlist) then
    { result := Except.ok { status := 400, headers := [], body := none },
      transferCalls := [] }
  else
    match transfer with
    | Except.error _ =>
      { result := Except.ok { status := 404, headers := [], body := none },
        transferCalls := [{ method := "GET", headersForwarded := false }] }
    | Except.ok tresp =>
      let r : Response := { status := 200, headers := [],
                            body := some tresp.body }
      { result := Except.ok r,
        transferCalls := [{ method := "GET", headersForwarded := false }] }

/-! ### The embed templating function (placeholder substitution, unnamed
source file, lines 45–47) -/

/-- Line 47: the format label is "wacz" exactly when the archive URL contains
the substring "wacz" anywhere, else "warc.gz". -/
def embedFormat (archiveUrl : String) : String :=
  if jsIncludes archiveUrl ("wacz") then "wacz" else "warc.gz"

/-- Lines 45–47: replace the three placeholders in the page template. -/
def embedSubstitute (page archiveUrl originalUrl : String) : String :=
  let page := jsReplaceAll page ("\x7b\x7boriginal-url\x7d\x7d") originalUrl
  let page := jsReplaceAll page ("\x7b\x7barchive-url\x7d\x7d") archiveUrl
  jsReplaceAll page ("\x7b\x7bformat\x7d\x7d") (embedFormat archiveUrl)

/-- The method the polyfill branch uses for its transfer fetch (line 136 of
`archive.js`): the client's method when a byte length is known, else `GET`. -/
def polyfillMethod (req : Request) (presp : FetchResponse) : String :=
  if (probeByteLength presp).isSome then req.method else "GET"

/-- The `content-range` header string the polyfill branch synthesizes for a
`HEAD` request (where no body is fetched, so `archiveByteLength` keeps the
probe value): line 150 of `archive.js`. -/
def synthContentRangeHead (rangeHeader : Option String)
    (ablOpt : Option String) : String :=
  let abl : JsVal :=
    match ablOpt with
    | some s => JsVal.str s
    | none => JsVal.null
  let range := parseRangeHeader rangeHeader abl
  "bytes " ++ jsNumDisplay range.1 ++ "-" ++ jsNumDisplay range.2 ++ "/" ++
    jsDisplay abl

/-! ### Sanity checks on concrete inputs -/

example : parseRangeHeader (some "bytes=100-199") (JsVal.num 1000) =
    (some 100, some 199) := by decide

example : parseRangeHeader none (JsVal.num 1000) = (some 0, some 999) := by
  decide

example : parseRangeHeader (some "bytes=foo-bar") (JsVal.num 1000) =
    (none, some 999) := by decide

example : parseRangeHeader (some "bytes=500-100") (JsVal.num 1000) =
    (some 500, some 100) := by decide

example : parseRangeHeader (some "bytes=100-") (JsVal.num 1000) =
    (some 100, some 999) := by decide

example : parseRangeHeader (some "bytes=100-2000") (JsVal.num 1000) =
    (some 100, some 999) := by decide

example : parseRangeHeader none JsVal.null = (some 0, some (-1)) := by decide

example :
    embedSubstitute ("<a href=\"\x7b\x7barchive-url\x7d\x7d\">\x7b\x7bformat\x7d\x7d</a>")
      ("https://e.org/a.warc.gz") ("https://o.org/") =
    "<a href=\"https://e.org/a.warc.gz\">warc.gz</a>" := by decide

example :
    embedFormat ("https://e.org/wacz-store/a.warc.gz") = "wacz" := by decide

/-! ### Lemmas: decimal printing and parsing -/

theorem digitVal_digitChar {k : Nat} (h : k < 10) :
    digitVal (digitChar k) = k := by
  interval_cases k <;> rfl

theorem digitChar_isDigit {k : Nat} (h : k < 10) :
    (digitChar k).isDigit = true := by
  interval_cases k <;> rfl

theorem dFrom_nil (a : Nat) : dFrom a [] = a := rfl

theorem dFrom_cons (a : Nat) (c : Char) (ds : List Char) :
    dFrom a (c :: ds) = dFrom (a * 10 + digitVal c) ds := rfl

theorem digitsToNat_eq_dFrom (ds : List Char) : digitsToNat ds = dFrom 0 ds :=
  rfl

theorem natToDigitsAux_dFrom :
    ∀ (fuel n : Nat) (acc : List Char), n < fuel →
      dFrom 0 (natToDigitsAux fuel n acc) = dFrom n acc := by
  intro fuel
  induction fuel with
  | zero => intro n acc h; omega
  | succ f ih =>
    intro n acc _
    by_cases h10 : n < 10
    · simp only [natToDigitsAux, if_pos h10, dFrom_cons]
      rw [digitVal_digitChar h10]
      simp
    · have hrec : n / 10 < f := by omega
      simp only [natToDigitsAux, if_neg h10]
      rw [ih (n / 10) _ hrec, dFrom_cons,
        digitVal_digitChar (Nat.mod_lt n (by omega))]
      have : n / 10 * 10 + n % 10 = n := by omega
      rw [this]

theorem digitsToNat_natToStr (n : Nat) : digitsToNat (natToStr n).data = n := by
  have := natToDigitsAux_dFrom (n + 1) n [] (by omega)
  simpa [natToStr, digitsToNat_eq_dFrom, dFrom_nil] using this

theorem natToDigitsAux_all_digits :
    ∀ (fuel n : Nat) (acc : List Char),
      (∀ c ∈ acc, c.isDigit = true) →
      ∀ c ∈ natToDigitsAux fuel n acc, c.isDigit = true := by
  intro fuel
  induction fuel with
  | zero => intro n acc hacc; exact hacc
  | succ f ih =>
    intro n acc hacc c hc
    by_cases h10 : n < 10
    · simp only [natToDigitsAux, if_pos h10] at hc
      rcases List.mem_cons.mp hc with h | h
      · subst h; exact digitChar_isDigit h10
      · exact hacc c h
    · simp only [natToDigitsAux, if_neg h10] at hc
      refine ih (n / 10) _ ?_ c hc
      intro d hd
      rcases List.mem_cons.mp hd with h | h
      · subst h; exact digitChar_isDigit (Nat.mod_lt n (by omega))
      · exact hacc d h

theorem natToStr_all_digits (n : Nat) :
    ∀ c ∈ (natToStr n).data, c.isDigit = true :=
  natToDigitsAux_all_digits (n + 1) n [] (by intro c hc; cases hc)

theorem natToDigitsAux_ne_nil :
    ∀ (fuel n : Nat) (acc : List Char), 0 < fuel ∨ acc ≠ [] →
      natToDigitsAux fuel n acc ≠ [] := by
  intro fuel
  induction fuel with
  | zero =>
    intro n acc h
    rcases h with h | h
    · omega
    · exact h
  | succ f ih =>
    intro n acc _
    by_cases h10 : n < 10
    · simp [natToDigitsAux, if_pos h10]
    · simp only [natToDigitsAux, if_neg h10]
      exact ih (n / 10) _ (Or.inr (by simp))

theorem natToStr_data_ne_nil (n : Nat) : (natToStr n).data ≠ [] :=
  natToDigitsAux_ne_nil (n + 1) n [] (Or.inl (by omega))

theorem digit_not_whitespace {c : Char} (h : c.isDigit = true) :
    c.isWhitespace = false := by
  by_cases h1 : c = ' '
  · subst h1; exact absurd h (by decide)
  by_cases h2 : c = '\t'
  · subst h2; exact absurd h (by decide)
  by_cases h3 : c = '\r'
  · subst h3; exact absurd h (by decide)
  by_cases h4 : c = '\n'
  · subst h4; exact absurd h (by decide)
  simp [Char.isWhitespace, h1, h2, h3, h4]

theorem digit_ne_dash {c : Char} (h : c.isDigit = true) : c ≠ '-' := by
  intro hc; subst hc; exact absurd h (by decide)

theorem digit_ne_plus {c : Char} (h : c.isDigit = true) : c ≠ '+' := by
  intro hc; subst hc; exact absurd h (by decide)

theorem dropWhile_ws_of_digits {ds : List Char}
    (h : ∀ c ∈ ds, c.isDigit = true) :
    ds.dropWhile Char.isWhitespace = ds := by
  cases ds with
  | nil => rfl
  | cons d rest =>
    have : d.isWhitespace = false := digit_not_whitespace (h d (by simp))
    simp [List.dropWhile_cons, this]

theorem takeWhile_digits_of_digits {ds : List Char}
    (h : ∀ c ∈ ds, c.isDigit = true) :
    ds.takeWhile Char.isDigit = ds :=
  List.takeWhile_eq_self_iff.mpr h

theorem parseIntChars_of_digits {ds : List Char} (hne : ds ≠ [])
    (h : ∀ c ∈ ds, c.isDigit = true) :
    parseIntChars ds = some ((digitsToNat ds : Nat) : Int) := by
  have hempty : ds.isEmpty = false := by
    cases ds with
    | nil => exact absurd rfl hne
    | cons d rest => rfl
  have hlead : parseDigitsLead ds = some (digitsToNat ds) := by
    unfold parseDigitsLead
    rw [takeWhile_digits_of_digits h]
    simp [hempty]
  unfold parseIntChars
  rw [dropWhile_ws_of_digits h]
  split
  · exfalso
    exact absurd (h '-' (by simp_all)) (by decide)
  · exfalso
    exact absurd (h '+' (by simp_all)) (by decide)
  · rw [hlead]
    rfl

theorem parseIntStr_natToStr (n : Nat) :
    parseIntStr (natToStr n) = some (n : Int) := by
  unfold parseIntStr
  rw [parseIntChars_of_digits (natToStr_data_ne_nil n) (natToStr_all_digits n),
    digitsToNat_natToStr]

theorem jsStringToNumber_natToStr (n : Nat) :
    jsStringToNumber (natToStr n) = some (n : Int) := by
  have hdig := natToStr_all_digits n
  have hrev : ∀ c ∈ (natToStr n).data.reverse, c.isDigit = true := by
    intro c hc
    exact hdig c (List.mem_reverse.mp hc)
  unfold jsStringToNumber
  rw [dropWhile_ws_of_digits hdig, dropWhile_ws_of_digits hrev,
    List.reverse_reverse]
  split
  · exact absurd (natToStr_data_ne_nil n) (by simp_all)
  · exfalso
    exact absurd (hdig '-' (by simp_all)) (by decide)
  · exfalso
    exact absurd (hdig '+' (by simp_all)) (by decide)
  · rw [if_pos (List.all_eq_true.mpr hdig), digitsToNat_natToStr]

theorem natToStr_ne_empty (n : Nat) : natToStr n ≠ "" := by
  intro h
  exact natToStr_data_ne_nil n (congrArg String.data h)

theorem intToStr_natCast (n : Nat) : intToStr ((n : Nat) : Int) = natToStr n := by
  unfold intToStr
  rw [if_neg (by omega)]
  norm_num

theorem dash_not_in_natToStr (n : Nat) : '-' ∉ (natToStr n).data := by
  intro h
  exact absurd (natToStr_all_digits n '-' h) (by decide)

/-! ### Lemmas: JS string operations -/

theorem leadsList_append : ∀ (a b : List Char), leadsList a (a ++ b) = true := by
  intro a
  induction a with
  | nil => intro b; rfl
  | cons c cs ih => intro b; simp [leadsList, ih]

theorem listReplaceFirst_strip (pat rest : List Char) (hne : pat ≠ []) :
    listReplaceFirst pat [] (pat ++ rest) = rest := by
  cases pat with
  | nil => exact absurd rfl hne
  | cons p ps =>
    show listReplaceFirst (p :: ps) [] (p :: (ps ++ rest)) = rest
    rw [listReplaceFirst]
    rw [if_pos (by exact leadsList_append (p :: ps) rest)]
    rw [List.nil_append]
    exact List.drop_left (p :: ps) rest

theorem splitOnChar_ne_nil (sep : Char) :
    ∀ l : List Char, splitOnChar sep l ≠ [] := by
  intro l
  induction l with
  | nil => simp [splitOnChar]
  | cons c cs ih =>
    rw [splitOnChar]
    by_cases h : c = sep
    · simp [h]
    · rw [if_neg h]
      rcases hs : splitOnChar sep cs with _ | ⟨p, ps⟩
      · exact absurd hs ih
      · simp

theorem splitOnChar_no_sep {sep : Char} :
    ∀ {l : List Char}, sep ∉ l → splitOnChar sep l = [l] := by
  intro l
  induction l with
  | nil => intro _; rfl
  | cons c cs ih =>
    intro h
    have hc : c ≠ sep := fun hc => h (by simp [hc])
    have hcs : sep ∉ cs := fun hm => h (by simp [hm])
    rw [splitOnChar, if_neg hc, ih hcs]

theorem splitOnChar_append {sep : Char} :
    ∀ {a : List Char} (b : List Char), sep ∉ a →
      splitOnChar sep (a ++ sep :: b) = a :: splitOnChar sep b := by
  intro a
  induction a with
  | nil => intro b _; simp [splitOnChar]
  | cons c cs ih =>
    intro b h
    have hc : c ≠ sep := fun hc => h (by simp [hc])
    have hcs : sep ∉ cs := fun hm => h (by simp [hm])
    have : (c :: cs) ++ sep :: b = c :: (cs ++ sep :: b) := rfl
    rw [this, splitOnChar, if_neg hc, ih b hcs]

theorem splitOnChar_parts_no_sep {sep : Char} :
    ∀ {l : List Char} {p : List Char}, p ∈ splitOnChar sep l → sep ∉ p := by
  intro l
  induction l with
  | nil =>
    intro p hp
    simp [splitOnChar] at hp
    simp [hp]
  | cons c cs ih =>
    intro p hp
    rw [splitOnChar] at hp
    by_cases h : c = sep
    · rw [if_pos h] at hp
      rcases List.mem_cons.mp hp with h' | h'
      · simp [h']
      · exact ih h'
    · rw [if_neg h] at hp
      rcases hs : splitOnChar sep cs with _ | ⟨q, qs⟩
      · exact absurd hs (splitOnChar_ne_nil sep cs)
      · rw [hs] at hp
        rcases List.mem_cons.mp hp with h' | h'
        · subst h'
          intro hmem
          rcases List.mem_cons.mp hmem with h'' | h''
          · exact h h''.symm
          · exact ih (hs ▸ List.mem_cons_self q qs) h''
        · exact ih (hs ▸ List.mem_cons.mpr (Or.inr h'))

theorem parseIntChars_nonneg {cs : List Char} (h : '-' ∉ cs) {v : Int}
    (hv : parseIntChars cs = some v) : 0 ≤ v := by
  unfold parseIntChars at hv
  split at hv
  · exfalso
    next heq =>
    have hmem : '-' ∈ cs.dropWhile Char.isWhitespace := by rw [heq]; simp
    exact h (List.dropWhile_subset Char.isWhitespace hmem)
  · rcases Option.map_eq_some'.mp hv with ⟨n, _, hn⟩
    subst hn
    exact Int.natCast_nonneg n
  · rcases Option.map_eq_some'.mp hv with ⟨n, _, hn⟩
    subst hn
    exact Int.natCast_nonneg n

theorem parseRangeHeader_closed {abl : JsVal} {L A B : Nat}
    (hlen : jsToNumber abl = some (L : Int)) (hB : B < L) :
    parseRangeHeader (some ("bytes=" ++ natToStr A ++ "-" ++ natToStr B)) abl
      = (some (A : Int), some (B : Int)) := by
  have hdata : ("bytes=" ++ natToStr A ++ "-" ++ natToStr B).data =
      ("bytes=").data ++ ((natToStr A).data ++ '-' :: (natToStr B).data) := by
    simp [String.data_append]
  have hstrip : listReplaceFirst (("bytes=").data) []
      (("bytes=" ++ natToStr A ++ "-" ++ natToStr B).data) =
      (natToStr A).data ++ '-' :: (natToStr B).data := by
    rw [hdata]
    exact listReplaceFirst_strip _ _ (by decide)
  have hsplit : splitOnChar '-'
      ((natToStr A).data ++ '-' :: (natToStr B).data) =
      [(natToStr A).data, (natToStr B).data] := by
    rw [splitOnChar_append _ (dash_not_in_natToStr A),
      splitOnChar_no_sep (dash_not_in_natToStr B)]
  have hge : jsGe (some ((B : Nat) : Int)) (some ((L : Nat) : Int)) = false := by
    simp only [jsGe, ge_iff_le, decide_eq_false_iff_not, not_le]
    omega
  unfold parseRangeHeader
  simp only [hlen, hstrip, hsplit, jsParseIntAt, List.get?]
  rw [parseIntChars_of_digits (natToStr_data_ne_nil A) (natToStr_all_digits A),
    parseIntChars_of_digits (natToStr_data_ne_nil B) (natToStr_all_digits B),
    digitsToNat_natToStr, digitsToNat_natToStr]
  simp [jsIsNaN, hge]

theorem arrayBufferSlice_closed {l : List Nat} {A B : Nat} (hAB : A ≤ B)
    (hB : B < l.length) :
    arrayBufferSlice l (some (A : Int)) (some ((B : Int) + 1)) =
      (l.drop A).take (B - A + 1) := by
  unfold arrayBufferSlice
  simp only [Option.getD_some]
  rw [if_neg (by omega), if_neg (by omega)]
  rw [min_eq_left (by omega : ((A : Nat) : Int) ≤ ((l.length : Nat) : Int)),
    min_eq_left (by omega : ((B : Nat) : Int) + 1 ≤ ((l.length : Nat) : Int))]
  have h1 : (((B : Nat) : Int) + 1 - ((A : Nat) : Int)).toNat = B - A + 1 := by
    omega
  have h2 : (((A : Nat) : Int)).toNat = A := by omega
  rw [h1, h2]

/-! ### Lemmas: replaceAll -/

theorem listReplaceAllAux_not_included {pat repl : List Char} :
    ∀ (fuel : Nat) (l : List Char), listIncludes pat l = false →
      listReplaceAllAux pat repl fuel l = l := by
  intro fuel
  induction fuel with
  | zero =>
    intro l _
    cases l with
    | nil => rfl
    | cons c cs => rfl
  | succ f ih =>
    intro l h
    cases l with
    | nil => rfl
    | cons c cs =>
      have h2 := h
      unfold listIncludes at h2
      have hlead : leadsList pat (c :: cs) = false := by
        rcases Bool.or_eq_false_iff.mp h2 with ⟨h3, _⟩
        exact h3
      have hrest : listIncludes pat cs = false := by
        rcases Bool.or_eq_false_iff.mp h2 with ⟨_, h4⟩
        exact h4
      rw [listReplaceAllAux, if_neg (by simp [hlead]), ih cs hrest]

theorem listReplaceAllAux_self {pat repl : List Char} (hne : pat ≠ []) :
    listReplaceAllAux pat repl pat.length pat = repl := by
  cases pat with
  | nil => exact absurd rfl hne
  | cons p ps =>
    have hlen : (p :: ps).length = ps.length + 1 := rfl
    rw [hlen, listReplaceAllAux]
    rw [if_pos ⟨by simp, by simpa using leadsList_append (p :: ps) []⟩]
    have hdrop : (p :: ps).drop (p :: ps).length = [] := List.drop_length _
    rw [hdrop]
    cases hps : ps.length <;> simp [listReplaceAllAux]

/-! ### Lemmas: header maps -/

theorem lookup_setHeader_self (hs : List (String × String)) (k v : String) :
    (setHeader hs k v).lookup k = some v := by
  induction hs with
  | nil => simp [setHeader, List.lookup]
  | cons p hs ih =>
    by_cases h : p.1 = k
    · simp [setHeader, h, List.lookup]
    · have : (k == p.1) = false := by
        simp [Ne.symm h]
      simp [setHeader, h, List.lookup, this, ih]

theorem lookup_setHeader_ne (hs : List (String × String)) {k k' : String}
    (v : String) (h : k' ≠ k) :
    (setHeader hs k v).lookup k' = hs.lookup k' := by
  have hbeq : (k' == k) = false := by simp [h]
  induction hs with
  | nil => simp [setHeader, List.lookup, hbeq]
  | cons p hs ih =>
    by_cases hp : p.1 = k
    · subst hp
      simp [setHeader, List.lookup, hbeq]
    · rcases p with ⟨a, b⟩
      simp only [setHeader, if_neg hp]
      by_cases hk : k' = a
      · simp [List.lookup, hk]
      · have h1 : (k' == a) = false := by simp [hk]
        simp [List.lookup, h1, ih]

/-! ### Handler branch reductions -/

theorem archiveHandler_probe_error (req : Request) (allowlist : List String)
    (ext : String) (transfer : FetchOutcome)
    (hm : req.method = "GET" ∨ req.method = "HEAD")
    (hv : checkArchiveUrl req.parsedArchiveUrl allowlist = some ext) :
    archiveHandler req allowlist (Except.error ()) transfer =
      { result := Except.ok { status := 404, headers := [], body := none },
        transferCalls := [] } := by
  unfold archiveHandler
  rw [if_neg (not_not_intro hm)]
  simp only [hv]

theorem archiveHandler_pass_ok (req : Request) (allowlist : List String)
    (ext : String) (presp tresp : FetchResponse)
    (hm : req.method = "GET" ∨ req.method = "HEAD")
    (hv : checkArchiveUrl req.parsedArchiveUrl allowlist = some ext)
    (hps : probeSupportsRange presp = true) :
    archiveHandler req allowlist (Except.ok presp) (Except.ok tresp) =
      { result := Except.ok (passThroughTransfer req tresp
          (baseReturnHeaders ++ extensionHeaders ext)),
        transferCalls := [{ method := req.method,
                            headersForwarded := true }] } := by
  unfold archiveHandler
  rw [if_neg (not_not_intro hm)]
  simp only [hv, hps, if_true]

theorem archiveHandler_pass_error (req : Request) (allowlist : List String)
    (ext : String) (presp : FetchResponse)
    (hm : req.method = "GET" ∨ req.method = "HEAD")
    (hv : checkArchiveUrl req.parsedArchiveUrl allowlist = some ext)
    (hps : probeSupportsRange presp = true) :
    archiveHandler req allowlist (Except.ok presp) (Except.error ()) =
      { result := Except.error (),
        transferCalls := [{ method := req.method,
                            headersForwarded := true }] } := by
  unfold archiveHandler
  rw [if_neg (not_not_intro hm)]
  simp only [hv, hps, if_true]

theorem archiveHandler_polyfill_ok (req : Request) (allowlist : List String)
    (ext : String) (presp tresp : FetchResponse)
    (hm : req.method = "GET" ∨ req.method = "HEAD")
    (hv : checkArchiveUrl req.parsedArchiveUrl allowlist = some ext)
    (hps : probeSupportsRange presp = false) :
    archiveHandler req allowlist (Except.ok presp) (Except.ok tresp) =
      { result := Except.ok (polyfillTransfer req (probeByteLength presp)
          tresp (baseReturnHeaders ++ extensionHeaders ext)),
        transferCalls := [{ method := polyfillMethod req presp,
                            headersForwarded := false }] } := by
  unfold archiveHandler polyfillMethod
  rw [if_neg (not_not_intro hm)]
  simp only [hv, hps]
  simp

theorem archiveHandler_polyfill_error (req : Request) (allowlist : List String)
    (ext : String) (presp : FetchResponse)
    (hm : req.method = "GET" ∨ req.method = "HEAD")
    (hv : checkArchiveUrl req.parsedArchiveUrl allowlist = some ext)
    (hps : probeSupportsRange presp = false) :
    archiveHandler req allowlist (Except.ok presp) (Except.error ()) =
      { result := Except.error (),
        transferCalls := [{ method := polyfillMethod req presp,
                            headersForwarded := false }] } := by
  unfold archiveHandler polyfillMethod
  rw [if_neg (not_not_intro hm)]
  simp only [hv, hps]
  simp

theorem polyfillTransfer_head (req : Request) (ablOpt : Option String)
    (tresp : FetchResponse) (RH : List (String × String))
    (hm : req.method = "HEAD") :
    polyfillTransfer req ablOpt tresp RH =
      { status := 206,
        headers :=
          if jsTruthyOpt tresp.etag then
            setHeader (setHeader (setHeader RH ("content-range")
              (synthContentRangeHead req.rangeHeader ablOpt))
              ("content-length") ("0")) ("etag") (tresp.etag.getD (""))
          else
            setHeader (setHeader RH ("content-range")
              (synthContentRangeHead req.rangeHeader ablOpt))
              ("content-length") ("0"),
        body := none } := by
  unfold polyfillTransfer synthContentRangeHead
  rw [hm]
  cases ablOpt <;> simp [polyfillByteLengthVal]

theorem polyfillTransfer_get_range (req : Request) (ablOpt : Option String)
    (tresp : FetchResponse) (RH : List (String × String)) (A B L : Nat)
    (hm : req.method = "GET")
    (hr : req.rangeHeader = some ("bytes=" ++ natToStr A ++ "-" ++ natToStr B))
    (habl : ablOpt = none ∨ ablOpt = some (natToStr L))
    (hbody : tresp.body.length = L)
    (hAB : A ≤ B) (hB : B < L) :
    polyfillTransfer req ablOpt tresp RH =
      { status := 206,
        headers :=
          if jsTruthyOpt tresp.etag then
            setHeader (setHeader (setHeader RH ("content-range")
              ("bytes " ++ natToStr A ++ "-" ++ natToStr B ++ "/" ++
                natToStr L)) ("content-length") (natToStr (B - A + 1)))
              ("etag") (tresp.etag.getD (""))
          else
            setHeader (setHeader RH ("content-range")
              ("bytes " ++ natToStr A ++ "-" ++ natToStr B ++ "/" ++
                natToStr L)) ("content-length") (natToStr (B - A + 1)),
        body := some ((tresp.body.drop A).take (B - A + 1)) } := by
  have hB' : B < tresp.body.length := by omega
  have hslice : arrayBufferSlice tresp.body (some ((A : Nat) : Int))
      (jsAdd (some ((B : Nat) : Int)) 1) =
      (tresp.body.drop A).take (B - A + 1) := by
    have : jsAdd (some ((B : Nat) : Int)) 1 = some (((B : Nat) : Int) + 1) :=
      rfl
    rw [this]
    exact arrayBufferSlice_closed hAB hB'
  have hlen : ((tresp.body.drop A).take (B - A + 1)).length = B - A + 1 := by
    rw [List.length_take, List.length_drop]
    omega
  have hif : (if ("GET" : String) = "HEAD" then (none : Option (List Nat))
      else some tresp.body) = some tresp.body := by simp
  unfold polyfillTransfer
  rw [hm, hr]
  rcases habl with h | h <;> subst h
  · simp only [hif]
    rw [show polyfillByteLengthVal none (some tresp.body) =
      JsVal.num ((tresp.body.length : Nat) : Int) from rfl]
    rw [hbody]
    rw [parseRangeHeader_closed (by simp [jsToNumber]) hB]
    simp only [Option.map_some']
    rw [hslice, hlen]
    simp [jsNumDisplay, jsDisplay, intToStr_natCast]
  · simp only [hif]
    rw [show polyfillByteLengthVal (some (natToStr L)) (some tresp.body) =
      JsVal.str (natToStr L) from rfl]
    rw [parseRangeHeader_closed
      (by simp [jsToNumber, jsStringToNumber_natToStr]) hB]
    simp only [Option.map_some']
    rw [hslice, hlen]
    simp [jsNumDisplay, jsDisplay, intToStr_natCast]

theorem archiveWarcGzHandler_transfer_error (req : Request)
    (allowlist : List String)
    (hm : req.method = "GET" ∨ req.method = "HEAD")
    (hv : checkWarcGzUrl req.parsedArchiveUrl allowlist = true) :
    archiveWarcGzHandler req allowlist (Except.error ()) =
      { result := Except.ok { status := 404, headers := [], body := none },
        transferCalls := [{ method := "GET", headersForwarded := false }] } := by
  unfold archiveWarcGzHandler
  rw [if_neg (not_not_intro hm), if_neg (by simp [hv])]

/-! ### Claims -/

/-- C1: on the polyfill path (`supportsRange` is false), a `GET` request with
a well-formed header `Range: bytes=A-B`, `A ≤ B`, `B < totalLength`, whose
origin body has exactly `totalLength` bytes (the probe either did not
declare a length or declared exactly that length), is answered with status
206, a body that is exactly the inclusive slice `[A, B]` of the fetched body
(`B - A + 1` bytes), and a `content-range` header equal to
`bytes A-B/totalLength`. -/
theorem claim1_polyfill_exact_range (req : Request) (allowlist : List String)
    (ext : String) (presp tresp : FetchResponse) (A B L : Nat)
    (hm : req.method = "GET")
    (hv : checkArchiveUrl req.parsedArchiveUrl allowlist = some ext)
    (hps : probeSupportsRange presp = false)
    (hcl : probeByteLength presp = none ∨
      probeByteLength presp = some (natToStr L))
    (hr : req.rangeHeader = some ("bytes=" ++ natToStr A ++ "-" ++ natToStr B))
    (hAB : A ≤ B) (hB : B < L)
    (hbody : tresp.body.length = L) :
    ∃ r : Response,
      (archiveHandler req allowlist (Except.ok presp)
        (Except.ok tresp)).result = Except.ok r ∧
      r.status = 206 ∧
      r.body = some ((tresp.body.drop A).take (B - A + 1)) ∧
      ((tresp.body.drop A).take (B - A + 1)).length = B - A + 1 ∧
      r.headers.lookup ("content-range") =
        some ("bytes " ++ natToStr A ++ "-" ++ natToStr B ++ "/" ++
          natToStr L) := by
  rw [archiveHandler_polyfill_ok req allowlist ext presp tresp
    (Or.inl hm) hv hps,
    polyfillTransfer_get_range req (probeByteLength presp) tresp _ A B L
    hm hr hcl hbody hAB hB]
  refine ⟨_, rfl, rfl, rfl, ?_, ?_⟩
  · rw [List.length_take, List.length_drop]
    omega
  · by_cases het : jsTruthyOpt tresp.etag
    · rw [if_pos het, lookup_setHeader_ne _ _ (by decide),
        lookup_setHeader_ne _ _ (by decide), lookup_setHeader_self]
    · rw [if_neg het, lookup_setHeader_ne _ _ (by decide),
        lookup_setHeader_self]

/-- C1 (witness): a concrete polyfill `GET` with `Range: bytes=1-2` against a
4-byte body: 206, the two middle bytes, and `content-range: bytes 1-2/4`. -/
theorem claim1_polyfill_exact_range_witness :
    ∃ r : Response,
      (archiveHandler ⟨"GET", some ("bytes=1-2"),
          some ⟨"/a.wacz", "https:", "example.org"⟩⟩ (["example.org"])
        (Except.ok ⟨200, none, none, none, none, []⟩)
        (Except.ok ⟨200, none, none, none, none, [10, 20, 30, 40]⟩)).result =
        Except.ok r ∧
      r.status = 206 ∧
      r.body = some (([10, 20, 30, 40].drop 1).take (2 - 1 + 1)) ∧
      (([10, 20, 30, 40].drop 1).take (2 - 1 + 1)).length = 2 - 1 + 1 ∧
      r.headers.lookup ("content-range") =
        some ("bytes " ++ natToStr 1 ++ "-" ++ natToStr 2 ++ "/" ++
          natToStr 4) :=
  claim1_polyfill_exact_range _ _ (".wacz") _ _ 1 2 4 rfl (by decide)
    (by decide) (Or.inl (by decide)) (by decide) (by decide) (by decide)
    (by decide)

/-- C2: the claim says absent, malformed, and integer-parse-failing `Range`
headers all yield `[0, totalLength - 1]`.  The code (and its own doc comment,
"Defaults to [0, Content-Length -1] if unparseable") only delivers that
default for an absent header, where `range.replace` throws; for a malformed
string value such as "bytes=foo-bar" the start coordinate stays `NaN`
(modelled as `none`), which downstream prints as "NaN" in `content-range`,
instead of the documented `0`.  This theorem evaluates the parser at the
failing input (and at the absent-header input, where the default does
hold). -/
theorem claim2_malformed_range_code_bug :
    parseRangeHeader none (JsVal.num 1000) = (some 0, some 999) ∧
    parseRangeHeader (some ("bytes=foo-bar")) (JsVal.num 1000) =
      (none, some 999) ∧
    (none : Option Int) ≠ some 0 := by decide

/-- C3 (counterexample): the claim asserts `end >= start` for every parsed
`ByteRange`; the parser never validates the start against the end, so
"bytes=500-100" with total length 1000 produces start 500 and end 100. -/
theorem claim3_counterexample :
    parseRangeHeader (some ("bytes=500-100")) (JsVal.num 1000) =
      (some 500, some 100) ∧ ¬((100 : Int) ≥ 500) := by decide

/-- C3 (amended): for every `Range` header value (including absent) and every
known `totalLength > 0`, the end coordinate produced by `parseRangeHeader` is
a number (never `NaN`) with `0 ≤ end < totalLength`; and for an absent header
the start is `0` (hence `end ≥ start` there).  The original `end ≥ start`
half fails in general (see the counterexample). -/
theorem claim3_end_bound (range : Option String) (L : Int) (hL : 0 < L) :
    (∃ e : Int, (parseRangeHeader range (JsVal.num L)).2 = some e ∧
      0 ≤ e ∧ e < L) ∧
    (range = none → (parseRangeHeader range (JsVal.num L)).1 = some 0) := by
  constructor
  · cases range with
    | none =>
      have hge : jsGe (some (L - 1)) (some L) = false := by
        simp only [jsGe, ge_iff_le, decide_eq_false_iff_not, not_le]
        omega
      refine ⟨L - 1, ?_, by omega, by omega⟩
      unfold parseRangeHeader
      simp [jsToNumber, jsSub, jsIsNaN, hge]
    | some r =>
      unfold parseRangeHeader
      simp only [jsToNumber]
      cases hv : jsParseIntAt
          (splitOnChar '-' (listReplaceFirst (("bytes=").data) [] r.data)) 1 with
      | none =>
        refine ⟨L - 1, ?_, by omega, by omega⟩
        simp [hv, jsIsNaN, jsSub]
      | some v =>
        have hvnn : 0 ≤ v := by
          unfold jsParseIntAt at hv
          cases hg : (splitOnChar '-'
              (listReplaceFirst (("bytes=").data) [] r.data)).get? 1 with
          | none => rw [hg] at hv; cases hv
          | some p =>
            rw [hg] at hv
            exact parseIntChars_nonneg
              (splitOnChar_parts_no_sep (List.get?_mem hg)) hv
        by_cases hclamp : v ≥ L
        · have hge : jsGe (some v) (some L) = true := by
            simp [jsGe, hclamp]
          refine ⟨L - 1, ?_, by omega, by omega⟩
          simp [hv, jsIsNaN, jsSub, hge]
        · have hge : jsGe (some v) (some L) = false := by
            simp only [jsGe, ge_iff_le, decide_eq_false_iff_not, not_le]
            omega
          refine ⟨v, ?_, hvnn, by omega⟩
          simp [hv, jsIsNaN, jsSub, hge]
  · intro h
    subst h
    have hge : jsGe (jsSub (some L) 1) (some L) = false := by
      simp only [jsSub, Option.map_some', jsGe, ge_iff_le,
        decide_eq_false_iff_not, not_le]
      omega
    unfold parseRangeHeader
    simp [jsToNumber]

/-- C3 (witness): the amended bound instantiated at a concrete out-of-order
range request and total length 10. -/
theorem claim3_end_bound_witness :
    (∃ e : Int, (parseRangeHeader (some ("bytes=7-3")) (JsVal.num 10)).2 =
      some e ∧ 0 ≤ e ∧ e < 10) ∧
    ((some ("bytes=7-3") : Option String) = none →
      (parseRangeHeader (some ("bytes=7-3")) (JsVal.num 10)).1 = some 0) :=
  claim3_end_bound (some ("bytes=7-3")) 10 (by decide)

/-- C9: an open-ended range "bytes=A-" parses to `[A, totalLength - 1]`: the
second split part is the empty string, `parseInt` of it is `NaN`, and the
clamp replaces it by `totalLength - 1`, so suffix-open ranges are served
from `A` to the end of the object. -/
theorem claim9_open_ended_range (A L : Nat) :
    parseRangeHeader (some ("bytes=" ++ natToStr A ++ "-")) (JsVal.num L) =
      (some (A : Int), some ((L : Int) - 1)) := by
  have hdata : ("bytes=" ++ natToStr A ++ "-").data =
      ("bytes=").data ++ ((natToStr A).data ++ '-' :: []) := by
    simp [String.data_append]
  have hstrip : listReplaceFirst (("bytes=").data) []
      (("bytes=" ++ natToStr A ++ "-").data) =
      (natToStr A).data ++ '-' :: [] := by
    rw [hdata]
    exact listReplaceFirst_strip _ _ (by decide)
  have hsplit : splitOnChar '-' ((natToStr A).data ++ '-' :: []) =
      [(natToStr A).data, []] := by
    rw [splitOnChar_append _ (dash_not_in_natToStr A)]
    rfl
  unfold parseRangeHeader
  simp only [hstrip, hsplit, jsParseIntAt, List.get?]
  rw [parseIntChars_of_digits (natToStr_data_ne_nil A) (natToStr_all_digits A),
    digitsToNat_natToStr]
  simp [jsToNumber, jsIsNaN, jsSub, parseIntChars, parseDigitsLead]

/-- C10: in the embed templating function the format placeholder is replaced
by "wacz" exactly when the archive URL contains the substring "wacz"
anywhere, and by "warc.gz" otherwise; in particular a `.warc.gz` archive
whose URL contains "wacz" elsewhere (here in a path segment) is labelled
"wacz". -/
theorem claim10_format_substitution (archiveUrl originalUrl : String) :
    embedSubstitute ("\x7b\x7bformat\x7d\x7d") archiveUrl originalUrl =
      embedFormat archiveUrl ∧
    (embedFormat archiveUrl = "wacz" ↔ jsIncludes archiveUrl ("wacz") = true) ∧
    (embedFormat archiveUrl = "warc.gz" ↔
      jsIncludes archiveUrl ("wacz") = false) ∧
    embedFormat ("https://example.org/wacz/archive.warc.gz") = "wacz" := by
  refine ⟨?_, ?_, ?_, by decide⟩
  · have h1 : jsReplaceAll ("\x7b\x7bformat\x7d\x7d")
        ("\x7b\x7boriginal-url\x7d\x7d") originalUrl =
        ("\x7b\x7bformat\x7d\x7d") := by
      unfold jsReplaceAll
      rw [listReplaceAllAux_not_included _ _ (by decide)]
    have h2 : jsReplaceAll ("\x7b\x7bformat\x7d\x7d")
        ("\x7b\x7barchive-url\x7d\x7d") archiveUrl =
        ("\x7b\x7bformat\x7d\x7d") := by
      unfold jsReplaceAll
      rw [listReplaceAllAux_not_included _ _ (by decide)]
    have h3 : jsReplaceAll ("\x7b\x7bformat\x7d\x7d")
        ("\x7b\x7bformat\x7d\x7d") (embedFormat archiveUrl) =
        embedFormat archiveUrl := by
      unfold jsReplaceAll
      rw [listReplaceAllAux_self (by decide)]
    show jsReplaceAll (jsReplaceAll (jsReplaceAll ("\x7b\x7bformat\x7d\x7d")
        ("\x7b\x7boriginal-url\x7d\x7d") originalUrl)
        ("\x7b\x7barchive-url\x7d\x7d") archiveUrl)
        ("\x7b\x7bformat\x7d\x7d") (embedFormat archiveUrl) =
      embedFormat archiveUrl
    rw [h1, h2, h3]
  · unfold embedFormat
    by_cases h : jsIncludes archiveUrl ("wacz") = true
    · simp [h]
    · simp [h]
  · unfold embedFormat
    by_cases h : jsIncludes archiveUrl ("wacz") = true
    · simp [h]
    · simp [h]

/-- C4 (counterexample): the claim says a non-success HTTP status from the
capability probe yields a 404 and no transfer.  `fetch` only throws on
network failures, and the code never inspects the probe's status: here the
probe answers with HTTP 404 (and no capability headers), yet the handler
proceeds to the transfer step (one polyfill fetch) and responds 206,
serving the 1-byte fetched body as the whole object. -/
theorem claim4_counterexample :
    archiveHandler ⟨"GET", none, some ⟨"/a.wacz", "https:", "example.org"⟩⟩
      (["example.org"])
      (Except.ok ⟨404, none, none, none, none, []⟩)
      (Except.ok ⟨404, none, none, none, none, [7]⟩) =
    ⟨Except.ok ⟨206,
      [("access-control-allow-origin", "*"), ("accept-ranges", "bytes"),
       ("content-type", "binary/octet-stream"),
       ("content-disposition", "attachment; filename=\"archive.wacz\""),
       ("content-range", "bytes 0-0/1"), ("content-length", "1")],
      some [7]⟩, [⟨"GET", false⟩]⟩ := by decide

/-- C4 (amended): for every validated request, a network-level probe failure
(the `fetch` call throwing) makes the handler respond 404 with an empty body
and makes it not proceed to the transfer step; a non-success probe HTTP
status, by contrast, is not detected (see the counterexample). -/
theorem claim4_probe_network_failure (req : Request) (allowlist : List String)
    (ext : String) (transfer : FetchOutcome)
    (hm : req.method = "GET" ∨ req.method = "HEAD")
    (hv : checkArchiveUrl req.parsedArchiveUrl allowlist = some ext) :
    archiveHandler req allowlist (Except.error ()) transfer =
      ⟨Except.ok ⟨404, [], none⟩, []⟩ :=
  archiveHandler_probe_error req allowlist ext transfer hm hv

/-- C4 (witness): the amended statement at a concrete validated request. -/
theorem claim4_probe_network_failure_witness :
    archiveHandler ⟨"GET", none, some ⟨"/b.wacz", "https:", "example.org"⟩⟩
      (["example.org"]) (Except.error ()) (Except.error ()) =
      ⟨Except.ok ⟨404, [], none⟩, []⟩ :=
  claim4_probe_network_failure _ _ (".wacz") _ (Or.inl rfl) (by decide)

/-- C5 (counterexample): the claim says a failed transfer fetch makes the
handler return an empty-body error response.  In `archive.js` the transfer
fetches are not wrapped in `try`/`catch`: on a validated pass-through request
whose transfer fetch throws, the handler produces no response at all — the
exception propagates out of it (modelled as `Except.error`). -/
theorem claim5_counterexample :
    (archiveHandler ⟨"GET", none, some ⟨"/a.wacz", "https:", "example.org"⟩⟩
      (["example.org"])
      (Except.ok ⟨200, some ("bytes"), some ("4"), none, none, []⟩)
      (Except.error ())).result = Except.error () := by decide

/-- C5 (amended): a failed transfer fetch is never retried (exactly one
transfer call is recorded).  In `archive.js`, on both the pass-through and
the polyfill path, the exception escapes the handler uncaught, producing no
handler response; only `archive-warc-gz.js` catches it and returns a 404
with an empty body (and, through the response-construction slip, no
headers). -/
theorem claim5_transfer_failure_behaviour :
    (∀ (req : Request) (allowlist : List String) (ext : String)
        (presp : FetchResponse),
      (req.method = "GET" ∨ req.method = "HEAD") →
      checkArchiveUrl req.parsedArchiveUrl allowlist = some ext →
      probeSupportsRange presp = true →
      archiveHandler req allowlist (Except.ok presp) (Except.error ()) =
        ⟨Except.error (), [⟨req.method, true⟩]⟩) ∧
    (∀ (req : Request) (allowlist : List String) (ext : String)
        (presp : FetchResponse),
      (req.method = "GET" ∨ req.method = "HEAD") →
      checkArchiveUrl req.parsedArchiveUrl allowlist = some ext →
      probeSupportsRange presp = false →
      archiveHandler req allowlist (Except.ok presp) (Except.error ()) =
        ⟨Except.error (), [⟨polyfillMethod req presp, false⟩]⟩) ∧
    (∀ (req : Request) (allowlist : List String),
      (req.method = "GET" ∨ req.method = "HEAD") →
      checkWarcGzUrl req.parsedArchiveUrl allowlist = true →
      archiveWarcGzHandler req allowlist (Except.error ()) =
        ⟨Except.ok ⟨404, [], none⟩, [⟨"GET", false⟩]⟩) := by
  refine ⟨?_, ?_, ?_⟩
  · intro req allowlist ext presp hm hv hps
    exact archiveHandler_pass_error req allowlist ext presp hm hv hps
  · intro req allowlist ext presp hm hv hps
    exact archiveHandler_polyfill_error req allowlist ext presp hm hv hps
  · intro req allowlist hm hv
    exact archiveWarcGzHandler_transfer_error req allowlist hm hv

/-- C5 (witness): the amended statement at concrete inputs — a pass-through
request, a polyfill request, and an `archive-warc-gz.js` request, each with a
failing transfer fetch. -/
theorem claim5_transfer_failure_witness :
    archiveHandler ⟨"HEAD", none, some ⟨"/a.wacz", "https:", "example.org"⟩⟩
      (["example.org"])
      (Except.ok ⟨200, some ("bytes"), some ("4"), none, none, []⟩)
      (Except.error ()) = ⟨Except.error (), [⟨"HEAD", true⟩]⟩ ∧
    archiveHandler ⟨"GET", none, some ⟨"/c.wacz", "https:", "example.org"⟩⟩
      (["example.org"])
      (Except.ok ⟨200, none, none, none, none, []⟩)
      (Except.error ()) = ⟨Except.error (), [⟨"GET", false⟩]⟩ ∧
    archiveWarcGzHandler ⟨"HEAD", none,
        some ⟨"/b.warc.gz", "http:", "example.org"⟩⟩ (["example.org"])
      (Except.error ()) = ⟨Except.ok ⟨404, [], none⟩, [⟨"GET", false⟩]⟩ := by
  refine ⟨?_, ?_, ?_⟩
  · exact claim5_transfer_failure_behaviour.1 _ _ (".wacz") _
      (Or.inr rfl) (by decide) (by decide)
  · exact claim5_transfer_failure_behaviour.2.1 _ _ (".wacz") _
      (Or.inl rfl) (by decide) (by decide)
  · exact claim5_transfer_failure_behaviour.2.2 _ _
      (Or.inr rfl) (by decide)

/-- C6 (code bug): the claim — and the spec — say every response carries
`access-control-allow-origin: *`.  The code builds such a `returnHeaders`
object, but the 405/400/404 constructions (and the 200 of
`archive-warc-gz.js`) pass it as the shorthand property
`{status, returnHeaders}` instead of the `headers` option, so those
responses carry no headers at all.  This theorem evaluates the code at two
failing inputs: a `POST` to `archive.js` (405, empty header set, hence no
CORS header) and a successful `archive-warc-gz.js` transfer (200, empty
header set). -/
theorem claim6_missing_cors_header :
    archiveHandler ⟨"POST", none, none⟩ [] (Except.error ())
      (Except.error ()) = ⟨Except.ok ⟨405, [], none⟩, []⟩ ∧
    archiveWarcGzHandler ⟨"GET", none,
        some ⟨"/a.warc.gz", "https:", "example.org"⟩⟩ (["example.org"])
      (Except.ok ⟨200, none, none, none, none, [1]⟩) =
    ⟨Except.ok ⟨200, [], some [1]⟩, [⟨"GET", false⟩]⟩ ∧
    List.lookup ("access-control-allow-origin")
      ([] : List (String × String)) = none := by decide

/-- C7: `supportsRange` is true iff the probe response carries both a
non-empty `accept-ranges` header and a non-empty `content-length` header;
and whenever it is false, every validated request is handled on the polyfill
path — the single transfer fetch does not forward the client's headers. -/
theorem claim7_probe_capability (presp : FetchResponse) :
    (probeSupportsRange presp = true ↔
      ((∃ s, presp.acceptRanges = some s ∧ s ≠ "") ∧
       (∃ s, presp.contentLength = some s ∧ s ≠ ""))) ∧
    (∀ (req : Request) (allowlist : List String) (ext : String)
        (transfer : FetchOutcome),
      (req.method = "GET" ∨ req.method = "HEAD") →
      checkArchiveUrl req.parsedArchiveUrl allowlist = some ext →
      probeSupportsRange presp = false →
      (archiveHandler req allowlist (Except.ok presp) transfer).transferCalls
        = [⟨polyfillMethod req presp, false⟩]) := by
  constructor
  · rcases presp with ⟨st, ar, cl, et, cr, bd⟩
    unfold probeSupportsRange jsTruthyOpt
    cases ar <;> cases cl <;> simp
  · intro req allowlist ext transfer hm hv hps
    cases transfer with
    | error e =>
      rw [archiveHandler_polyfill_error req allowlist ext presp hm hv hps]
    | ok tresp =>
      rw [archiveHandler_polyfill_ok req allowlist ext presp tresp hm hv hps]

/-- C7 (witness): the capability test and the polyfill-path conclusion at a
concrete probe response that lacks `accept-ranges`. -/
theorem claim7_probe_capability_witness :
    (archiveHandler ⟨"GET", none, some ⟨"/d.wacz", "https:", "example.org"⟩⟩
      (["example.org"])
      (Except.ok ⟨200, none, some ("9"), none, none, []⟩)
      (Except.ok ⟨200, none, none, none, none, [0, 1, 2]⟩)).transferCalls =
      [⟨"GET", false⟩] :=
  (claim7_probe_capability ⟨200, none, some ("9"), none, none, []⟩).2
    _ _ (".wacz") _ (Or.inl rfl) (by decide) (by decide)

/-- C8: on the polyfill path, a `HEAD` request gets an empty (`null`) body,
a `content-length` header of "0", a synthesized `content-range` header built
from the resolved byte range and the probe-known byte length, and status
206. -/
theorem claim8_head_polyfill (req : Request) (allowlist : List String)
    (ext : String) (presp tresp : FetchResponse)
    (hm : req.method = "HEAD")
    (hv : checkArchiveUrl req.parsedArchiveUrl allowlist = some ext)
    (hps : probeSupportsRange presp = false) :
    ∃ r : Response,
      (archiveHandler req allowlist (Except.ok presp)
        (Except.ok tresp)).result = Except.ok r ∧
      r.body = none ∧
      r.headers.lookup ("content-length") = some ("0") ∧
      r.headers.lookup ("content-range") =
        some (synthContentRangeHead req.rangeHeader (probeByteLength presp)) ∧
      r.status = 206 := by
  rw [archiveHandler_polyfill_ok req allowlist ext presp tresp
    (Or.inr hm) hv hps,
    polyfillTransfer_head req (probeByteLength presp) tresp _ hm]
  refine ⟨_, rfl, rfl, ?_, ?_, rfl⟩
  · by_cases het : jsTruthyOpt tresp.etag
    · rw [if_pos het, lookup_setHeader_ne _ _ (by decide),
        lookup_setHeader_self]
    · rw [if_neg het, lookup_setHeader_self]
  · by_cases het : jsTruthyOpt tresp.etag
    · rw [if_pos het, lookup_setHeader_ne _ _ (by decide),
        lookup_setHeader_ne _ _ (by decide), lookup_setHeader_self]
    · rw [if_neg het, lookup_setHeader_ne _ _ (by decide),
        lookup_setHeader_self]

/-- C8 (witness): a concrete `HEAD` polyfill request with a known byte
length of 6 and a range request for bytes 1–4. -/
theorem claim8_head_polyfill_witness :
    ∃ r : Response,
      (archiveHandler ⟨"HEAD", some ("bytes=1-4"),
          some ⟨"/e.wacz", "https:", "example.org"⟩⟩ (["example.org"])
        (Except.ok ⟨200, none, some ("6"), none, none, []⟩)
        (Except.ok ⟨200, none, none, none, none, []⟩)).result =
        Except.ok r ∧
      r.body = none ∧
      r.headers.lookup ("content-length") = some ("0") ∧
      r.headers.lookup ("content-range") =
        some (synthContentRangeHead (some ("bytes=1-4")) (some ("6"))) ∧
      r.status = 206 :=
  claim8_head_polyfill _ _ (".wacz") _ _ rfl (by decide) (by decide)

end WarcEmbed
